import Mathlib

/-!
Verification of the manifest rendering engine of `hypershift-installer`
(`pkg/render/manifests.go`), shallowly embedded in Lean 4.

The cluster manifest context and its feature-group methods are translated
directly from `src/pkg/render/manifests.go`.  The underlying render context
(`newRenderContext`, `addManifest`, `addManifestFiles`, `addPatch`,
`substituteParams`, `renderManifests`), the release resolver and the
template function registry are declared and used by that file but their
implementations are not part of the source under review; they are modelled
from the specification (spec sections 4.1, 4.2 and 6), as noted on each
such definition.  Template substitution is abstracted as an oracle from
(parameter object, asset path) to either the expanded text or an error.
-/

set_option autoImplicit false

namespace Render

/-- Error taxonomy of the render core (spec section 7). -/
inductive RenderError where
  | assetNotFound (p : String)
  | templateError (msg : String)
  | lookupError (n : String)
  | invalidCIDR (s : String)
  | ioError (s : String)
  | patchTargetMissing (n : String)
  | releaseResolution (msg : String)
deriving Repr, DecidableEq

/-- The parameter object handed to a template expansion: either the cluster
parameter object (`c.params` in the Go code) or the two-field wrapper map
`{"data": data, "name": name}` built by `userManifestsBootstrapper`. -/
inductive TemplateParams where
  | cluster
  | wrapper (data name : String)
deriving Repr, DecidableEq

/-- Modelled from the spec: `substituteParams(paramObject, assetPath)` of the
render context (spec section 4.2) loads the named asset and expands it, or
fails; the asset library and the template engine are external, so a render
run is parameterized by this substitution oracle. -/
abbrev Subst := TemplateParams → String → Except RenderError String

/-- Character-level embedding of Go `strings.Split(s, sep)` for a one-character
separator: splits into the (always non-empty) list of segments between
occurrences of `sep`. -/
def splitOnChar (sep : Char) : List Char → List (List Char)
  | [] => [[]]
  | c :: cs =>
    if c = sep then [] :: splitOnChar sep cs
    else
      match splitOnChar sep cs with
      | [] => [[c]]
      | s :: ss => (c :: s) :: ss

/-- `userConfigMapName` from `manifests.go`: take the segment before the first
`.` (Go: `strings.Split(file, ".")`, then `parts[0]`), replace every
underscore with a hyphen (Go: `strings.ReplaceAll(parts[0], "_", "-")`), and
prepend `"user-manifest-"`. -/
def userConfigMapName (file : String) : String :=
  "user-manifest-" ++
    String.mk (((splitOnChar '.' file.data).headD []).map
      (fun c => if c = '_' then '-' else c))

/-- Character-level embedding of Go `path.Base` as used on the slash-separated
asset identifiers of `manifests.go`: the last `/`-separated segment. -/
def pathBase (p : String) : String :=
  String.mk ((splitOnChar '/' p.data).getLastD p.data)

/-- The accumulated output mapping: insertion-ordered (name, rendered text)
pairs. -/
abbrev Manifests := List (String × String)

/-- The cluster manifest context of `manifests.go`: the embedded render
context's accumulated manifest mapping, plus the two user-manifest
collections `userManifestFiles` and `userManifests` (the latter a Go map,
modelled as an insertion-ordered association list). -/
structure Ctx where
  manifests : Manifests
  userManifestFiles : List String
  userManifests : List (String × String)
deriving Repr, DecidableEq

/-- Modelled from the spec: insertion into an ordered mapping where the last
insertion for a given key wins (spec section 3); an existing entry is
overwritten in place, a new key is appended at the end. -/
def upsert : Manifests → String → String → Manifests
  | [], n, t => [(n, t)]
  | e :: rest, n, t => if e.1 = n then (n, t) :: rest else e :: upsert rest n t

/-- Lookup of a name in the accumulated mapping. -/
def lookupM : Manifests → String → Option String
  | [], _ => none
  | e :: rest, n => if e.1 = n then some e.2 else lookupM rest n

/-- The names present in the accumulated mapping, in order. -/
def keysL (m : Manifests) : List String := m.map Prod.fst

/-- Modelled from the spec: `renderContext.addManifest(name, text)` inserts or
overwrites an entry in the accumulated output mapping (spec section 4.2). -/
def addManifest (c : Ctx) (name text : String) : Ctx :=
  { c with manifests := upsert c.manifests name text }

/-- Modelled from the spec: `renderContext.addManifestFiles(assetPath...)`
substitutes the context's own parameter object into each asset and adds the
result under the asset's directory-qualified identifier; any substitution
failure is fatal to the whole render pass (spec section 4.2). -/
def addManifestFiles (subst : Subst) : Ctx → List String → Except RenderError Ctx
  | c, [] => .ok c
  | c, f :: fs => do
    let text ← subst .cluster f
    addManifestFiles subst (addManifest c f text) fs

/-- Modelled from the spec: `renderContext.addPatch(baseName, patchAssetPath)`
requires `baseName` already present, failing with `PatchTargetMissing`
otherwise, and overwrites the entry under `baseName` with the concatenation
of its current content and the patch asset's expansion (spec section 4.2). -/
def addPatch (subst : Subst) (c : Ctx) (baseName patchAssetPath : String) :
    Except RenderError Ctx :=
  match lookupM c.manifests baseName with
  | none => .error (.patchTargetMissing baseName)
  | some content => do
    let patchText ← subst .cluster patchAssetPath
    .ok (addManifest c baseName (content ++ patchText))

/-- `addUserManifestFiles` from `manifests.go`: appends asset paths to the
`userManifestFiles` collection. -/
def addUserManifestFiles (c : Ctx) (names : List String) : Ctx :=
  { c with userManifestFiles := c.userManifestFiles ++ names }

/-- `addUserManifest` from `manifests.go`: writes a (name, content) pair into
the `userManifests` map (last write for a key wins). -/
def addUserManifest (c : Ctx) (name content : String) : Ctx :=
  { c with userManifests := upsert c.userManifests name content }

/-- The asset list of the `etcd` feature group in `manifests.go`. -/
def etcdFiles : List String :=
  ["etcd/etcd-cluster-crd.yaml",
   "etcd/etcd-cluster.yaml",
   "etcd/etcd-operator-cluster-role-binding.yaml",
   "etcd/etcd-operator-cluster-role.yaml",
   "etcd/etcd-operator.yaml"]

/-- `clusterManifestContext.etcd` from `manifests.go`. -/
def etcd (subst : Subst) (c : Ctx) : Except RenderError Ctx :=
  addManifestFiles subst c etcdFiles

/-- The asset registered as a user manifest file by `oauthOpenshiftServer`. -/
def oauthFile : String := "oauth-openshift/ingress-certs-secret.yaml"

/-- `clusterManifestContext.oauthOpenshiftServer` from `manifests.go`. -/
def oauthOpenshiftServer (c : Ctx) : Ctx :=
  addUserManifestFiles c [oauthFile]

/-- The patch target of `kubeAPIServer` in `manifests.go`. -/
def kubeAPIServerDeployment : String := "kube-apiserver-deployment.yaml"

/-- The patch asset applied by `kubeAPIServer` in `manifests.go`. -/
def kubeAPIServerPatchFile : String :=
  "kube-apiserver/kube-apiserver-deployment-patch.yaml"

/-- The VPN client config asset added by `kubeAPIServer` in `manifests.go`. -/
def vpnclientConfigFile : String :=
  "kube-apiserver/kube-apiserver-vpnclient-config.yaml"

/-- `clusterManifestContext.kubeAPIServer` from `manifests.go`: first patches
the `kube-apiserver-deployment.yaml` manifest, then adds the VPN client
config asset. -/
def kubeAPIServer (subst : Subst) (c : Ctx) : Except RenderError Ctx := do
  let c ← addPatch subst c kubeAPIServerDeployment kubeAPIServerPatchFile
  addManifestFiles subst c [vpnclientConfigFile]

/-- The asset registered as a user manifest file by `registry`. -/
def registryFile : String := "registry/cluster-imageregistry-config.yaml"

/-- `clusterManifestContext.registry` from `manifests.go`. -/
def registry (c : Ctx) : Ctx :=
  addUserManifestFiles c [registryFile]

/-- `clusterManifestContext.clusterBootstrap` from `manifests.go`: for every
entry of the static `cluster-bootstrap` asset directory listing (obtained
from the external asset library via `assets.AssetDir`, here supplied as the
input `dir`), registers `"cluster-bootstrap/" + m` as a user manifest file. -/
def clusterBootstrap (dir : List String) (c : Ctx) : Ctx :=
  dir.foldl (fun c m => addUserManifestFiles c ["cluster-bootstrap/" ++ m]) c

/-- The VPN server-side assets added to the output mapping by `openVPN`. -/
def vpnServerFiles : List String :=
  ["openvpn/openvpn-serviceaccount.yaml",
   "openvpn/openvpn-server-deployment.yaml",
   "openvpn/openvpn-ccd-configmap.yaml",
   "openvpn/openvpn-server-configmap.yaml"]

/-- The VPN client-side assets registered as user manifest files by `openVPN`. -/
def vpnClientFiles : List String :=
  ["openvpn/openvpn-client-deployment.yaml",
   "openvpn/openvpn-client-configmap.yaml"]

/-- `clusterManifestContext.openVPN` from `manifests.go`. -/
def openVPN (subst : Subst) (c : Ctx) : Except RenderError Ctx := do
  let c ← addManifestFiles subst c vpnServerFiles
  .ok (addUserManifestFiles c vpnClientFiles)

/-- The asset list of the `routerProxy` feature group in `manifests.go`. -/
def routerProxyFiles : List String :=
  ["router-proxy/router-proxy-deployment.yaml",
   "router-proxy/router-proxy-configmap.yaml",
   "router-proxy/router-proxy-vpnclient-configmap.yaml",
   "router-proxy/router-proxy-http-service.yaml",
   "router-proxy/router-proxy-https-service.yaml"]

/-- `clusterManifestContext.routerProxy` from `manifests.go`. -/
def routerProxy (subst : Subst) (c : Ctx) : Except RenderError Ctx :=
  addManifestFiles subst c routerProxyFiles

/-- The operator deployment asset of `hypershiftOperator` in `manifests.go`. -/
def operatorFile : String := "hypershift-operator/hypershift-operator-deployment.yaml"

/-- `clusterManifestContext.hypershiftOperator` from `manifests.go`. -/
def hypershiftOperator (subst : Subst) (c : Ctx) : Except RenderError Ctx :=
  addManifestFiles subst c [operatorFile]

/-- The bootstrapper pod asset added first by `userManifestsBootstrapper`. -/
def podFile : String := "user-manifests-bootstrapper/user-manifests-bootstrapper-pod.yaml"

/-- The fixed wrapper template asset of `userManifestsBootstrapper`. -/
def wrapperTemplateFile : String := "user-manifests-bootstrapper/user-manifest-template.yaml"

/-- The body shared by both loops of `userManifestsBootstrapper` in
`manifests.go`: substitutes the wrapper template against the two-field
parameter map `{"data": data, "name": userConfigMapName name}` and adds the
result under `"user-manifest-" + name`. -/
def wrapUserManifest (subst : Subst) (c : Ctx) (name data : String) :
    Except RenderError Ctx := do
  let manifest ← subst (.wrapper data (userConfigMapName name)) wrapperTemplateFile
  .ok (addManifest c ("user-manifest-" ++ name) manifest)

/-- The first loop of `userManifestsBootstrapper`: for every registered user
manifest file, substitute the asset against the cluster parameters and wrap
the result under the file's base name. -/
def wrapFiles (subst : Subst) : Ctx → List String → Except RenderError Ctx
  | c, [] => .ok c
  | c, f :: fs => do
    let data ← subst .cluster f
    let c ← wrapUserManifest subst c (pathBase f) data
    wrapFiles subst c fs

/-- The second loop of `userManifestsBootstrapper`: wrap every entry of the
`userManifests` map, keyed by the entry's own name. -/
def wrapPairs (subst : Subst) : Ctx → List (String × String) → Except RenderError Ctx
  | c, [] => .ok c
  | c, p :: ps => do
    let c ← wrapUserManifest subst c p.1 p.2
    wrapPairs subst c ps

/-- `clusterManifestContext.userManifestsBootstrapper` from `manifests.go`:
adds the bootstrapper pod manifest, then wraps every user manifest file,
then wraps every entry of the `userManifests` map.  Go iterates that map in
an unspecified order, modelled by the iteration-order function `ord` applied
to the accumulated entries. -/
def userManifestsBootstrapper (subst : Subst)
    (ord : List (String × String) → List (String × String)) (c : Ctx) :
    Except RenderError Ctx := do
  let c ← addManifestFiles subst c [podFile]
  let c ← wrapFiles subst c c.userManifestFiles
  wrapPairs subst c (ord c.userManifests)

/-- `clusterManifestContext.setupManifests(etcd, vpn, externalOauth,
includeRegistry)` from `manifests.go`: the fixed conditional sequence of
feature-group methods.  Failures that the Go code surfaces as panics inside
the feature groups are modelled as errors of the same fail-fast pass. -/
def setupManifests (subst : Subst)
    (ord : List (String × String) → List (String × String)) (dir : List String)
    (etcdFlag vpn externalOauth includeRegistry : Bool) (c : Ctx) :
    Except RenderError Ctx :=
  (if etcdFlag then etcd subst c else .ok c) >>= fun c =>
  kubeAPIServer subst c >>= fun c =>
  (if vpn then
      openVPN subst
        (if externalOauth then oauthOpenshiftServer (clusterBootstrap dir c)
         else clusterBootstrap dir c)
    else .ok
      (if externalOauth then oauthOpenshiftServer (clusterBootstrap dir c)
       else clusterBootstrap dir c)) >>= fun c =>
  userManifestsBootstrapper subst ord
    (if includeRegistry then registry c else c) >>= fun c =>
  routerProxy subst c >>= fun c =>
  hypershiftOperator subst c

/-- The release metadata returned by the external release resolver
(`release.GetReleaseInfo`): the image and version tables. -/
structure ReleaseInfo where
  images : List (String × String)
  versions : List (String × String)
deriving Repr, DecidableEq

/-- `newClusterManifestContext` from `manifests.go`: a fresh context with
empty output mapping and empty user-manifest collections (the function
registry it installs is carried by the substitution oracle). -/
def newClusterManifestContext : Ctx :=
  { manifests := [], userManifestFiles := [], userManifests := [] }

/-- Modelled from the spec: `renderContext.renderManifests()` returns the
final accumulated set, preserving insertion order (spec section 4.2). -/
def renderManifests (c : Ctx) : Manifests :=
  c.manifests

/-- `RenderClusterManifests` from `manifests.go`: resolve the release
metadata (the external resolver's outcome is the input `rel`), abort on a
resolution error, otherwise build a fresh context whose substitution oracle
closes over the resolved tables, run the setup sequence and return the
rendered manifest set. -/
def RenderClusterManifests (rel : Except RenderError ReleaseInfo)
    (substOf : ReleaseInfo → Subst)
    (ord : List (String × String) → List (String × String)) (dir : List String)
    (etcdFlag vpn externalOauth includeRegistry : Bool) :
    Except RenderError Manifests :=
  match rel with
  | .error e => .error e
  | .ok info =>
    match setupManifests (substOf info) ord dir etcdFlag vpn externalOauth
        includeRegistry newClusterManifestContext with
    | .error e => .error e
    | .ok c => .ok (renderManifests c)

/-! ### Basic lemmas about the ordered mapping -/

theorem keysL_nil : keysL [] = [] := rfl

theorem keysL_cons {e : String × String} {m : Manifests} :
    keysL (e :: m) = e.1 :: keysL m := rfl

theorem keysL_upsert (m : Manifests) (n t : String) :
    keysL (upsert m n t) = if n ∈ keysL m then keysL m else keysL m ++ [n] := by
  induction m with
  | nil => simp [upsert, keysL]
  | cons e rest ih =>
    simp only [upsert]
    split
    next h =>
      subst h
      simp [keysL_cons]
    next h =>
      have hne : ¬ n = e.1 := fun h' => h h'.symm
      by_cases hm : n ∈ keysL rest
      · rw [keysL_cons, ih, if_pos hm, keysL_cons,
          if_pos (by simp [keysL_cons, hm])]
      · rw [keysL_cons, ih, if_neg hm, keysL_cons,
          if_neg (by simp [keysL_cons, hne, hm]), List.cons_append]

theorem mem_keysL_upsert {m : Manifests} {n n' t : String} :
    n' ∈ keysL (upsert m n t) ↔ n' ∈ keysL m ∨ n' = n := by
  rw [keysL_upsert]
  split
  next h =>
    constructor
    · exact Or.inl
    · rintro (h' | rfl)
      · exact h'
      · exact h
  next h =>
    simp [List.mem_append]

theorem lookupM_upsert_self {m : Manifests} {n t : String} :
    lookupM (upsert m n t) n = some t := by
  induction m with
  | nil => simp [upsert, lookupM]
  | cons e rest ih =>
    simp only [upsert]
    split
    next h => simp [lookupM]
    next h =>
      simp only [lookupM]
      rw [if_neg h]
      exact ih

theorem lookupM_upsert_ne {m : Manifests} {n n' t : String} (h : n' ≠ n) :
    lookupM (upsert m n t) n' = lookupM m n' := by
  induction m with
  | nil => simp [upsert, lookupM, Ne.symm h]
  | cons e rest ih =>
    simp only [upsert]
    split
    next he =>
      subst he
      simp [lookupM, Ne.symm h]
    next he =>
      simp only [lookupM]
      rw [ih]

theorem nodup_keysL_upsert {m : Manifests} {n t : String}
    (h : (keysL m).Nodup) : (keysL (upsert m n t)).Nodup := by
  rw [keysL_upsert]
  split
  next => exact h
  next hm => simp [List.nodup_append, h, hm]

theorem upsert_not_mem {m : Manifests} {n t : String} (h : n ∉ keysL m) :
    upsert m n t = m ++ [(n, t)] := by
  induction m with
  | nil => simp [upsert]
  | cons e rest ih =>
    rw [keysL_cons, List.mem_cons, not_or] at h
    simp only [upsert]
    rw [if_neg (fun h' => h.1 h'.symm), List.cons_append, ih h.2]

theorem keysL_upsert_mem {m : Manifests} {n t : String} (h : n ∈ keysL m) :
    keysL (upsert m n t) = keysL m := by
  rw [keysL_upsert, if_pos h]

theorem lookupM_eq_none_iff {m : Manifests} {n : String} :
    lookupM m n = none ↔ n ∉ keysL m := by
  induction m with
  | nil => simp [lookupM, keysL]
  | cons e rest ih =>
    by_cases he : e.1 = n
    · simp only [lookupM]
      rw [if_pos he, keysL_cons]
      simp [he]
    · simp only [lookupM]
      rw [if_neg he, keysL_cons, List.mem_cons, not_or, ih]
      constructor
      · exact fun h' => ⟨fun h'' => he h''.symm, h'⟩
      · exact fun h' => h'.2

theorem lookupM_isSome_of_mem {m : Manifests} {n : String} (h : n ∈ keysL m) :
    ∃ t, lookupM m n = some t := by
  cases hl : lookupM m n with
  | none => exact absurd h (lookupM_eq_none_iff.1 hl)
  | some t => exact ⟨t, rfl⟩

theorem keysL_append {a b : Manifests} : keysL (a ++ b) = keysL a ++ keysL b :=
  List.map_append _ a b

/-! ### Bind analysis for `Except` -/

theorem bind_ok {α β : Type} {x : Except RenderError α}
    {f : α → Except RenderError β} {b : β} :
    (x >>= f) = .ok b ↔ ∃ a, x = .ok a ∧ f a = .ok b := by
  cases x with
  | error e => simp [Bind.bind, Except.bind]
  | ok a => simp [Bind.bind, Except.bind]

theorem ok_bind {α β : Type} (a : α) (f : α → Except RenderError β) :
    ((Except.ok a : Except RenderError α) >>= f) = f a := rfl

theorem bind_error {α β : Type} {x : Except RenderError α}
    {f : α → Except RenderError β} {e : RenderError} :
    (x >>= f) = .error e ↔ x = .error e ∨ ∃ a, x = .ok a ∧ f a = .error e := by
  cases x with
  | error e' => simp [Bind.bind, Except.bind]
  | ok a => simp [Bind.bind, Except.bind]

/-! ### Projection lemmas for the context operations -/

@[simp] theorem addManifest_manifests (c : Ctx) (n t : String) :
    (addManifest c n t).manifests = upsert c.manifests n t := rfl

@[simp] theorem addManifest_userManifestFiles (c : Ctx) (n t : String) :
    (addManifest c n t).userManifestFiles = c.userManifestFiles := rfl

@[simp] theorem addManifest_userManifests (c : Ctx) (n t : String) :
    (addManifest c n t).userManifests = c.userManifests := rfl

@[simp] theorem addUserManifestFiles_manifests (c : Ctx) (ns : List String) :
    (addUserManifestFiles c ns).manifests = c.manifests := rfl

@[simp] theorem addUserManifestFiles_userManifestFiles (c : Ctx) (ns : List String) :
    (addUserManifestFiles c ns).userManifestFiles = c.userManifestFiles ++ ns := rfl

@[simp] theorem addUserManifestFiles_userManifests (c : Ctx) (ns : List String) :
    (addUserManifestFiles c ns).userManifests = c.userManifests := rfl

@[simp] theorem addUserManifest_manifests (c : Ctx) (n t : String) :
    (addUserManifest c n t).manifests = c.manifests := rfl

@[simp] theorem addUserManifest_userManifests (c : Ctx) (n t : String) :
    (addUserManifest c n t).userManifests = upsert c.userManifests n t := rfl

theorem mem_keysL_of_lookupM {m : Manifests} {n t : String}
    (h : lookupM m n = some t) : n ∈ keysL m := by
  by_contra hn
  rw [← lookupM_eq_none_iff] at hn
  rw [h] at hn
  cases hn

/-! ### Characterization of the operations on a successful run -/

theorem addManifestFiles_ok {subst : Subst} {fs : List String} {c c' : Ctx}
    (h : addManifestFiles subst c fs = .ok c') :
    c'.userManifestFiles = c.userManifestFiles ∧
    c'.userManifests = c.userManifests ∧
    (∀ n, n ∈ keysL c'.manifests ↔ n ∈ keysL c.manifests ∨ n ∈ fs) ∧
    (∀ f ∈ fs, ∃ t, subst .cluster f = .ok t) := by
  induction fs generalizing c with
  | nil =>
    simp only [addManifestFiles] at h
    cases h
    exact ⟨rfl, rfl, fun n => by simp, fun f hf => absurd hf (List.not_mem_nil f)⟩
  | cons f fs ih =>
    simp only [addManifestFiles] at h
    rw [bind_ok] at h
    obtain ⟨t, hst, hrest⟩ := h
    obtain ⟨h1, h2, h3, h4⟩ := ih hrest
    refine ⟨h1, h2, fun n => ?_, fun g hg => ?_⟩
    · rw [h3 n, addManifest_manifests, mem_keysL_upsert, List.mem_cons]
      tauto
    · rcases List.mem_cons.1 hg with rfl | hg'
      · exact ⟨t, hst⟩
      · exact h4 g hg'

theorem addManifestFiles_structure {subst : Subst} {fs : List String} {c c' : Ctx}
    (hfresh : ∀ f ∈ fs, f ∉ keysL c.manifests) (hnd : fs.Nodup)
    (h : addManifestFiles subst c fs = .ok c') :
    ∃ ts : Manifests, c'.manifests = c.manifests ++ ts ∧ keysL ts = fs := by
  induction fs generalizing c with
  | nil =>
    simp only [addManifestFiles] at h
    cases h
    exact ⟨[], by simp, rfl⟩
  | cons f fs ih =>
    simp only [addManifestFiles] at h
    rw [bind_ok] at h
    obtain ⟨t, hst, hrest⟩ := h
    have hfr : f ∉ keysL c.manifests := hfresh f (List.mem_cons_self f fs)
    have hup : (addManifest c f t).manifests = c.manifests ++ [(f, t)] := by
      rw [addManifest_manifests, upsert_not_mem hfr]
    have hfresh' : ∀ g ∈ fs, g ∉ keysL (addManifest c f t).manifests := by
      intro g hg
      rw [hup, keysL_append, List.mem_append]
      rintro (hcase | hcase)
      · exact hfresh g (List.mem_cons_of_mem f hg) hcase
      · simp only [keysL, List.map_cons, List.map_nil, List.mem_singleton] at hcase
        subst hcase
        exact (List.nodup_cons.1 hnd).1 hg
    obtain ⟨ts, hts, hkts⟩ := ih hfresh' (List.nodup_cons.1 hnd).2 hrest
    refine ⟨(f, t) :: ts, ?_, ?_⟩
    · rw [hts, hup, List.append_assoc, List.singleton_append]
    · rw [keysL_cons, hkts]

theorem addManifestFiles_nodup {subst : Subst} {fs : List String} {c c' : Ctx}
    (h : addManifestFiles subst c fs = .ok c')
    (hnd : (keysL c.manifests).Nodup) : (keysL c'.manifests).Nodup := by
  induction fs generalizing c with
  | nil =>
    simp only [addManifestFiles] at h
    cases h
    exact hnd
  | cons f fs ih =>
    simp only [addManifestFiles] at h
    rw [bind_ok] at h
    obtain ⟨t, _, hrest⟩ := h
    exact ih hrest (by rw [addManifest_manifests]; exact nodup_keysL_upsert hnd)

theorem addPatch_ok {subst : Subst} {c c' : Ctx} {base patch : String}
    (h : addPatch subst c base patch = .ok c') :
    c'.userManifestFiles = c.userManifestFiles ∧
    c'.userManifests = c.userManifests ∧
    keysL c'.manifests = keysL c.manifests ∧
    ∃ content patchText, lookupM c.manifests base = some content ∧
      subst .cluster patch = .ok patchText ∧
      lookupM c'.manifests base = some (content ++ patchText) := by
  cases hl : lookupM c.manifests base with
  | none =>
    simp only [addPatch, hl] at h
    cases h
  | some content =>
    simp only [addPatch, hl] at h
    rw [bind_ok] at h
    obtain ⟨p, hp, hok⟩ := h
    cases hok
    refine ⟨rfl, rfl, ?_, content, p, rfl, hp, ?_⟩
    · rw [addManifest_manifests, keysL_upsert_mem (mem_keysL_of_lookupM hl)]
    · rw [addManifest_manifests, lookupM_upsert_self]

theorem wrapFiles_ok {subst : Subst} {fs : List String} {c c' : Ctx}
    (h : wrapFiles subst c fs = .ok c') :
    c'.userManifestFiles = c.userManifestFiles ∧
    c'.userManifests = c.userManifests ∧
    (∀ n, n ∈ keysL c'.manifests ↔ n ∈ keysL c.manifests ∨
      ∃ f ∈ fs, n = "user-manifest-" ++ pathBase f) ∧
    (∀ f ∈ fs, ∃ data wrapped, subst .cluster f = .ok data ∧
      subst (.wrapper data (userConfigMapName (pathBase f))) wrapperTemplateFile
        = .ok wrapped) := by
  induction fs generalizing c with
  | nil =>
    simp only [wrapFiles] at h
    cases h
    exact ⟨rfl, rfl, fun n => by simp, fun f hf => absurd hf (List.not_mem_nil f)⟩
  | cons f fs ih =>
    simp only [wrapFiles] at h
    rw [bind_ok] at h
    obtain ⟨data, hdata, h⟩ := h
    rw [bind_ok] at h
    obtain ⟨c₁, hw, hrest⟩ := h
    simp only [wrapUserManifest] at hw
    rw [bind_ok] at hw
    obtain ⟨wrapped, hwr, hok⟩ := hw
    cases hok
    obtain ⟨h1, h2, h3, h4⟩ := ih hrest
    refine ⟨h1, h2, fun n => ?_, fun g hg => ?_⟩
    · rw [h3 n, addManifest_manifests, mem_keysL_upsert]
      constructor
      · rintro ((hn | rfl) | ⟨g, hg, rfl⟩)
        · exact Or.inl hn
        · exact Or.inr ⟨f, List.mem_cons_self f fs, rfl⟩
        · exact Or.inr ⟨g, List.mem_cons_of_mem f hg, rfl⟩
      · rintro (hn | ⟨g, hg, rfl⟩)
        · exact Or.inl (Or.inl hn)
        · rcases List.mem_cons.1 hg with rfl | hg'
          · exact Or.inl (Or.inr rfl)
          · exact Or.inr ⟨g, hg', rfl⟩
    · rcases List.mem_cons.1 hg with rfl | hg'
      · exact ⟨data, wrapped, hdata, hwr⟩
      · exact h4 g hg'

theorem wrapPairs_ok {subst : Subst} {ps : List (String × String)} {c c' : Ctx}
    (h : wrapPairs subst c ps = .ok c') :
    c'.userManifestFiles = c.userManifestFiles ∧
    c'.userManifests = c.userManifests ∧
    (∀ n, n ∈ keysL c'.manifests ↔ n ∈ keysL c.manifests ∨
      ∃ p ∈ ps, n = "user-manifest-" ++ p.1) ∧
    (∀ p ∈ ps, ∃ wrapped,
      subst (.wrapper p.2 (userConfigMapName p.1)) wrapperTemplateFile
        = .ok wrapped) := by
  induction ps generalizing c with
  | nil =>
    simp only [wrapPairs] at h
    cases h
    exact ⟨rfl, rfl, fun n => by simp, fun p hp => absurd hp (List.not_mem_nil p)⟩
  | cons p ps ih =>
    simp only [wrapPairs] at h
    rw [bind_ok] at h
    obtain ⟨c₁, hw, hrest⟩ := h
    simp only [wrapUserManifest] at hw
    rw [bind_ok] at hw
    obtain ⟨wrapped, hwr, hok⟩ := hw
    cases hok
    obtain ⟨h1, h2, h3, h4⟩ := ih hrest
    refine ⟨h1, h2, fun n => ?_, fun q hq => ?_⟩
    · rw [h3 n, addManifest_manifests, mem_keysL_upsert]
      constructor
      · rintro ((hn | rfl) | ⟨q, hq, rfl⟩)
        · exact Or.inl hn
        · exact Or.inr ⟨p, List.mem_cons_self p ps, rfl⟩
        · exact Or.inr ⟨q, List.mem_cons_of_mem p hq, rfl⟩
      · rintro (hn | ⟨q, hq, rfl⟩)
        · exact Or.inl (Or.inl hn)
        · rcases List.mem_cons.1 hq with rfl | hq'
          · exact Or.inl (Or.inr rfl)
          · exact Or.inr ⟨q, hq', rfl⟩
    · rcases List.mem_cons.1 hq with rfl | hq'
      · exact ⟨wrapped, hwr⟩
      · exact h4 q hq'

theorem wrapFiles_nodup {subst : Subst} {fs : List String} {c c' : Ctx}
    (h : wrapFiles subst c fs = .ok c')
    (hnd : (keysL c.manifests).Nodup) : (keysL c'.manifests).Nodup := by
  induction fs generalizing c with
  | nil =>
    simp only [wrapFiles] at h
    cases h
    exact hnd
  | cons f fs ih =>
    simp only [wrapFiles] at h
    rw [bind_ok] at h
    obtain ⟨data, _, h⟩ := h
    rw [bind_ok] at h
    obtain ⟨c₁, hw, hrest⟩ := h
    simp only [wrapUserManifest] at hw
    rw [bind_ok] at hw
    obtain ⟨wrapped, _, hok⟩ := hw
    cases hok
    exact ih hrest (by rw [addManifest_manifests]; exact nodup_keysL_upsert hnd)

theorem wrapPairs_nodup {subst : Subst} {ps : List (String × String)} {c c' : Ctx}
    (h : wrapPairs subst c ps = .ok c')
    (hnd : (keysL c.manifests).Nodup) : (keysL c'.manifests).Nodup := by
  induction ps generalizing c with
  | nil =>
    simp only [wrapPairs] at h
    cases h
    exact hnd
  | cons p ps ih =>
    simp only [wrapPairs] at h
    rw [bind_ok] at h
    obtain ⟨c₁, hw, hrest⟩ := h
    simp only [wrapUserManifest] at hw
    rw [bind_ok] at hw
    obtain ⟨wrapped, _, hok⟩ := hw
    cases hok
    exact ih hrest (by rw [addManifest_manifests]; exact nodup_keysL_upsert hnd)

theorem userManifestsBootstrapper_ok {subst : Subst}
    {ord : List (String × String) → List (String × String)} {c c' : Ctx}
    (h : userManifestsBootstrapper subst ord c = .ok c') :
    c'.userManifestFiles = c.userManifestFiles ∧
    c'.userManifests = c.userManifests ∧
    (∀ n, n ∈ keysL c'.manifests ↔ n ∈ keysL c.manifests ∨ n = podFile ∨
      (∃ f ∈ c.userManifestFiles, n = "user-manifest-" ++ pathBase f) ∨
      (∃ p ∈ ord c.userManifests, n = "user-manifest-" ++ p.1)) ∧
    (∃ t, subst .cluster podFile = .ok t) ∧
    (∀ f ∈ c.userManifestFiles, ∃ data wrapped, subst .cluster f = .ok data ∧
      subst (.wrapper data (userConfigMapName (pathBase f))) wrapperTemplateFile
        = .ok wrapped) ∧
    (∀ p ∈ ord c.userManifests, ∃ wrapped,
      subst (.wrapper p.2 (userConfigMapName p.1)) wrapperTemplateFile
        = .ok wrapped) := by
  simp only [userManifestsBootstrapper] at h
  rw [bind_ok] at h
  obtain ⟨c₁, hpod, h⟩ := h
  rw [bind_ok] at h
  obtain ⟨c₂, hwf, hwp⟩ := h
  obtain ⟨p1, p2, p3, p4⟩ := addManifestFiles_ok hpod
  obtain ⟨w1, w2, w3, w4⟩ := wrapFiles_ok hwf
  obtain ⟨q1, q2, q3, q4⟩ := wrapPairs_ok hwp
  have huf₂ : c₂.userManifestFiles = c.userManifestFiles := by rw [w1, p1]
  have hum₂ : c₂.userManifests = c.userManifests := by rw [w2, p2]
  refine ⟨by rw [q1, huf₂], by rw [q2, hum₂], fun n => ?_, ?_, ?_, ?_⟩
  · rw [q3 n, w3 n, p3 n, hum₂, p1]
    simp only [List.mem_singleton, or_assoc]
  · obtain ⟨t, ht⟩ := p4 podFile (List.mem_singleton.2 rfl)
    exact ⟨t, ht⟩
  · intro f hf
    exact w4 f (by rw [p1]; exact hf)
  · intro p hp
    exact q4 p (by rw [hum₂]; exact hp)

theorem userManifestsBootstrapper_nodup {subst : Subst}
    {ord : List (String × String) → List (String × String)} {c c' : Ctx}
    (h : userManifestsBootstrapper subst ord c = .ok c')
    (hnd : (keysL c.manifests).Nodup) : (keysL c'.manifests).Nodup := by
  simp only [userManifestsBootstrapper] at h
  rw [bind_ok] at h
  obtain ⟨c₁, hpod, h⟩ := h
  rw [bind_ok] at h
  obtain ⟨c₂, hwf, hwp⟩ := h
  exact wrapPairs_nodup hwp (wrapFiles_nodup hwf (addManifestFiles_nodup hpod hnd))

theorem clusterBootstrap_eq (dir : List String) (c : Ctx) :
    clusterBootstrap dir c =
      { c with userManifestFiles :=
          c.userManifestFiles ++ dir.map (fun m => "cluster-bootstrap/" ++ m) } := by
  induction dir generalizing c with
  | nil => simp [clusterBootstrap]
  | cons m ms ih =>
    simp only [clusterBootstrap, List.foldl_cons] at *
    rw [ih]
    simp [addUserManifestFiles]

@[simp] theorem clusterBootstrap_manifests (dir : List String) (c : Ctx) :
    (clusterBootstrap dir c).manifests = c.manifests := by
  rw [clusterBootstrap_eq]

@[simp] theorem clusterBootstrap_userManifests (dir : List String) (c : Ctx) :
    (clusterBootstrap dir c).userManifests = c.userManifests := by
  rw [clusterBootstrap_eq]

@[simp] theorem clusterBootstrap_userManifestFiles (dir : List String) (c : Ctx) :
    (clusterBootstrap dir c).userManifestFiles =
      c.userManifestFiles ++ dir.map (fun m => "cluster-bootstrap/" ++ m) := by
  rw [clusterBootstrap_eq]

/-! ### Setup-sequence decomposition -/

theorem kubeAPIServer_ok {subst : Subst} {c c' : Ctx}
    (h : kubeAPIServer subst c = .ok c') :
    c'.userManifestFiles = c.userManifestFiles ∧
    c'.userManifests = c.userManifests ∧
    (∀ n, n ∈ keysL c'.manifests ↔ n ∈ keysL c.manifests ∨ n = vpnclientConfigFile) := by
  simp only [kubeAPIServer] at h
  rw [bind_ok] at h
  obtain ⟨c₁, hpatch, hadd⟩ := h
  obtain ⟨p1, p2, p3, _⟩ := addPatch_ok hpatch
  obtain ⟨a1, a2, a3, _⟩ := addManifestFiles_ok hadd
  refine ⟨a1.trans p1, a2.trans p2, fun n => ?_⟩
  rw [a3 n, p3]
  simp only [List.mem_singleton]

theorem etcdIf_ok {subst : Subst} {e : Bool} {c c' : Ctx}
    (h : (if e then etcd subst c else .ok c) = .ok c') :
    c'.userManifestFiles = c.userManifestFiles ∧
    c'.userManifests = c.userManifests ∧
    (∀ n, n ∈ keysL c'.manifests ↔
      n ∈ keysL c.manifests ∨ n ∈ (if e then etcdFiles else [])) := by
  cases e with
  | false =>
    simp only [Bool.false_eq_true, if_false] at h ⊢
    cases h
    exact ⟨rfl, rfl, fun n => by simp⟩
  | true =>
    simp only [if_true, etcd] at h ⊢
    obtain ⟨h1, h2, h3, _⟩ := addManifestFiles_ok h
    exact ⟨h1, h2, h3⟩

theorem vpnIf_ok {subst : Subst} {v : Bool} {c c' : Ctx}
    (h : (if v then openVPN subst c else .ok c) = .ok c') :
    c'.userManifestFiles =
      c.userManifestFiles ++ (if v then vpnClientFiles else []) ∧
    c'.userManifests = c.userManifests ∧
    (∀ n, n ∈ keysL c'.manifests ↔
      n ∈ keysL c.manifests ∨ n ∈ (if v then vpnServerFiles else [])) := by
  cases v with
  | false =>
    simp only [Bool.false_eq_true, if_false] at h ⊢
    cases h
    exact ⟨by simp, rfl, fun n => by simp⟩
  | true =>
    simp only [if_true, openVPN] at h ⊢
    rw [bind_ok] at h
    obtain ⟨ca, hma, hok⟩ := h
    cases hok
    obtain ⟨h1, h2, h3, _⟩ := addManifestFiles_ok hma
    refine ⟨?_, ?_, fun n => ?_⟩
    · rw [addUserManifestFiles_userManifestFiles, h1]
    · rw [addUserManifestFiles_userManifests, h2]
    · rw [addUserManifestFiles_manifests, h3 n]

/-- The contents of the `userManifestFiles` collection at the moment the
user-manifest bootstrapper runs, as a function of the initial collection,
the cluster-bootstrap directory listing and the feature flags. -/
def finalUserFiles (base : List String) (dir : List String) (o v r : Bool) :
    List String :=
  base ++ dir.map (fun m => "cluster-bootstrap/" ++ m)
    ++ (if o then [oauthFile] else [])
    ++ (if v then vpnClientFiles else [])
    ++ (if r then [registryFile] else [])

/-- The manifest names inserted by the setup steps that run before the
user-manifest bootstrapper. -/
def preKeys (e v : Bool) : List String :=
  (if e then etcdFiles else []) ++ [vpnclientConfigFile]
    ++ (if v then vpnServerFiles else [])

theorem setup_decomp {subst : Subst}
    {ord : List (String × String) → List (String × String)} {dir : List String}
    {e v o r : Bool} {σ c' : Ctx}
    (h : setupManifests subst ord dir e v o r σ = .ok c') :
    ∃ c₆ c₇ c₈ : Ctx,
      c₆.userManifests = σ.userManifests ∧
      c₆.userManifestFiles = finalUserFiles σ.userManifestFiles dir o v r ∧
      (∀ n, n ∈ keysL c₆.manifests ↔ n ∈ keysL σ.manifests ∨ n ∈ preKeys e v) ∧
      ((keysL σ.manifests).Nodup → (keysL c₆.manifests).Nodup) ∧
      userManifestsBootstrapper subst ord c₆ = .ok c₇ ∧
      routerProxy subst c₇ = .ok c₈ ∧
      hypershiftOperator subst c₈ = .ok c' := by
  simp only [setupManifests] at h
  rw [bind_ok] at h
  obtain ⟨c₁, h₁, h⟩ := h
  rw [bind_ok] at h
  obtain ⟨c₂, h₂, h⟩ := h
  rw [bind_ok] at h
  obtain ⟨c₅, h₅, h⟩ := h
  rw [bind_ok] at h
  obtain ⟨c₇, h₇, h⟩ := h
  rw [bind_ok] at h
  obtain ⟨c₈, h₈, h₉⟩ := h
  obtain ⟨e1, e2, e3⟩ := etcdIf_ok h₁
  obtain ⟨k1, k2, k3⟩ := kubeAPIServer_ok h₂
  obtain ⟨v1, v2, v3⟩ := vpnIf_ok h₅
  have hXm : (if o then oauthOpenshiftServer (clusterBootstrap dir c₂)
      else clusterBootstrap dir c₂).manifests = c₂.manifests := by
    cases o <;> simp [oauthOpenshiftServer]
  have hXuM : (if o then oauthOpenshiftServer (clusterBootstrap dir c₂)
      else clusterBootstrap dir c₂).userManifests = c₂.userManifests := by
    cases o <;> simp [oauthOpenshiftServer]
  have hXuMF : (if o then oauthOpenshiftServer (clusterBootstrap dir c₂)
      else clusterBootstrap dir c₂).userManifestFiles =
      c₂.userManifestFiles ++ dir.map (fun m => "cluster-bootstrap/" ++ m)
        ++ (if o then [oauthFile] else []) := by
    cases o <;> simp [oauthOpenshiftServer]
  have hRm : (if r then registry c₅ else c₅).manifests = c₅.manifests := by
    cases r <;> simp [registry]
  have hRuM : (if r then registry c₅ else c₅).userManifests = c₅.userManifests := by
    cases r <;> simp [registry]
  have hRuMF : (if r then registry c₅ else c₅).userManifestFiles =
      c₅.userManifestFiles ++ (if r then [registryFile] else []) := by
    cases r <;> simp [registry]
  refine ⟨if r then registry c₅ else c₅, c₇, c₈, ?_, ?_, ?_, ?_, h₇, h₈, h₉⟩
  · rw [hRuM, v2, hXuM, k2, e2]
  · rw [hRuMF, v1, hXuMF, k1, e1, finalUserFiles]
  · intro n
    rw [hRm, v3 n, hXm, k3 n, e3 n, preKeys]
    simp only [List.mem_append, List.mem_singleton]
    tauto
  · intro hnd
    rw [hRm]
    have hkeys : ∀ n, n ∈ keysL c₅.manifests ↔
        n ∈ keysL σ.manifests ∨ n ∈ preKeys e v := by
      intro n
      rw [v3 n, hXm, k3 n, e3 n, preKeys]
      simp only [List.mem_append, List.mem_singleton]
      tauto
    -- rebuild nodup through the individual steps
    have nd₁ : (keysL c₁.manifests).Nodup := by
      rcases Bool.dichotomy e with he | he
      · subst he
        simp only [Bool.false_eq_true, if_false] at h₁
        cases h₁
        exact hnd
      · subst he
        simp only [if_true, etcd] at h₁
        exact addManifestFiles_nodup h₁ hnd
    have nd₂ : (keysL c₂.manifests).Nodup := by
      simp only [kubeAPIServer] at h₂
      rw [bind_ok] at h₂
      obtain ⟨cp, hp, ha⟩ := h₂
      have : keysL cp.manifests = keysL c₁.manifests := (addPatch_ok hp).2.2.1
      exact addManifestFiles_nodup ha (this ▸ nd₁)
    have nd₅ : (keysL c₅.manifests).Nodup := by
      rcases Bool.dichotomy v with hv | hv
      · subst hv
        simp only [Bool.false_eq_true, if_false] at h₅
        cases h₅
        rw [hXm]
        exact nd₂
      · subst hv
        simp only [if_true, openVPN] at h₅
        rw [bind_ok] at h₅
        obtain ⟨ca, hma, hok⟩ := h₅
        cases hok
        rw [addUserManifestFiles_manifests]
        exact addManifestFiles_nodup hma (by rw [hXm]; exact nd₂)
    exact nd₅

/-- The manifest names a full setup run can insert, beyond those already
present, as a predicate: the pre-bootstrapper group names, the bootstrapper
pod, the wrapped user-manifest names derived from the final
`userManifestFiles` collection and the `userManifests` entries, the router
proxy group and the operator deployment. -/
def addedKey (e v : Bool) (files : List String) (pairs : List (String × String))
    (n : String) : Prop :=
  n ∈ preKeys e v ∨ n = podFile ∨
  (∃ f ∈ files, n = "user-manifest-" ++ pathBase f) ∨
  (∃ p ∈ pairs, n = "user-manifest-" ++ p.1) ∨
  n ∈ routerProxyFiles ∨ n = operatorFile

theorem setup_ok {subst : Subst}
    {ord : List (String × String) → List (String × String)} {dir : List String}
    {e v o r : Bool} {σ c' : Ctx}
    (h : setupManifests subst ord dir e v o r σ = .ok c') :
    c'.userManifests = σ.userManifests ∧
    c'.userManifestFiles = finalUserFiles σ.userManifestFiles dir o v r ∧
    (∀ n, n ∈ keysL c'.manifests ↔ n ∈ keysL σ.manifests ∨
      addedKey e v (finalUserFiles σ.userManifestFiles dir o v r)
        (ord σ.userManifests) n) := by
  obtain ⟨c₆, c₇, c₈, hum, humf, hkeys, _, hboot, hrouter, hop⟩ := setup_decomp h
  obtain ⟨b1, b2, b3, _, _, _⟩ := userManifestsBootstrapper_ok hboot
  simp only [routerProxy] at hrouter
  simp only [hypershiftOperator] at hop
  obtain ⟨r1, r2, r3, _⟩ := addManifestFiles_ok hrouter
  obtain ⟨o1, o2, o3, _⟩ := addManifestFiles_ok hop
  rw [humf, hum] at b3
  refine ⟨by rw [o2, r2, b2, hum], by rw [o1, r1, b1, humf], fun n => ?_⟩
  rw [o3 n, r3 n, b3 n, hkeys n]
  simp only [addedKey, List.mem_singleton, or_assoc]

theorem setup_nodup {subst : Subst}
    {ord : List (String × String) → List (String × String)} {dir : List String}
    {e v o r : Bool} {σ c' : Ctx}
    (h : setupManifests subst ord dir e v o r σ = .ok c')
    (hnd : (keysL σ.manifests).Nodup) : (keysL c'.manifests).Nodup := by
  obtain ⟨c₆, _, _, _, _, _, hnodup, hboot, hrouter, hop⟩ := setup_decomp h
  have hb := userManifestsBootstrapper_nodup hboot (hnodup hnd)
  simp only [routerProxy] at hrouter
  simp only [hypershiftOperator] at hop
  exact addManifestFiles_nodup hop (addManifestFiles_nodup hrouter hb)

/-! ### Name-group disjointness -/

/-- A manifest name belongs to the group `g` (for example `"etcd/"`) when `g`
is an initial segment of the name. -/
def underGroup (g n : String) : Prop :=
  n.data.take g.data.length = g.data

instance (g n : String) : Decidable (underGroup g n) := by
  unfold underGroup
  infer_instance

theorem not_underGroup_etcd_userManifest (x : String) :
    ¬ underGroup "etcd/" ("user-manifest-" ++ x) := by
  intro h
  rw [underGroup, String.data_append] at h
  have h5 : ("user-manifest-".data ++ x.data).take "etcd/".data.length
      = ['u', 's', 'e', 'r', '-'] := rfl
  rw [h5] at h
  exact absurd h (by decide)

/-! ### The first segment produced by the character-level split -/

theorem splitOnChar_ne_nil (sep : Char) (l : List Char) :
    splitOnChar sep l ≠ [] := by
  cases l with
  | nil => simp [splitOnChar]
  | cons c cs =>
    simp only [splitOnChar]
    split
    · simp
    · cases h : splitOnChar sep cs <;> simp

theorem splitOnChar_head (sep : Char) (l : List Char) :
    (splitOnChar sep l).headD [] = l.takeWhile (fun c => c ≠ sep) := by
  induction l with
  | nil => rfl
  | cons c cs ih =>
    simp only [splitOnChar]
    by_cases h : c = sep
    · rw [if_pos h]
      subst h
      simp [List.takeWhile_cons]
    · rw [if_neg h]
      cases hsp : splitOnChar sep cs with
      | nil => exact absurd hsp (splitOnChar_ne_nil sep cs)
      | cons s ss =>
        rw [hsp] at ih
        simp only [List.headD_cons] at ih
        simp only [ne_eq, decide_not] at ih ⊢
        simp [List.takeWhile_cons, h, ← ih]

/-- C5: for every non-empty input containing no path separators,
`userConfigMapName` strips everything after the first `.`, replaces every
underscore of the remaining first segment with a hyphen and prepends
`"user-manifest-"`; in particular it maps `"etcd_secret.yaml"` to
`"user-manifest-etcd-secret"` and `"a.b.c"` to `"user-manifest-a"` (being a
plain function of the input, it is pure and total on that domain). -/
theorem C5_userConfigMapName (s : String) (h1 : s ≠ "")
    (h2 : ∀ c ∈ s.data, c ≠ '/') :
    userConfigMapName s =
      "user-manifest-" ++ String.mk ((s.data.takeWhile (fun c => c ≠ '.')).map
        (fun c => if c = '_' then '-' else c)) ∧
    userConfigMapName "etcd_secret.yaml" = "user-manifest-etcd-secret" ∧
    userConfigMapName "a.b.c" = "user-manifest-a" := by
  refine ⟨?_, by decide, by decide⟩
  rw [userConfigMapName, splitOnChar_head]

/-- Witness for C5 at the concrete input `"etcd_secret.yaml"`. -/
theorem C5_userConfigMapName_witness :
    userConfigMapName "etcd_secret.yaml" =
      "user-manifest-" ++
        String.mk ((("etcd_secret.yaml").data.takeWhile (fun c => c ≠ '.')).map
          (fun c => if c = '_' then '-' else c)) ∧
    userConfigMapName "etcd_secret.yaml" = "user-manifest-etcd-secret" ∧
    userConfigMapName "a.b.c" = "user-manifest-a" :=
  C5_userConfigMapName "etcd_secret.yaml" (by decide) (by decide)

/-- C10: `userConfigMapName` depends only on the text before the first `.`
of its input: two identifiers with equal first segments map to the same
ConfigMap name (so `"a.yaml"` and `"a.json"` collide), and an input that
begins with `.` yields exactly `"user-manifest-"`. -/
theorem C10_first_segment_only (s t u : String)
    (hst : s.data.takeWhile (fun c => c ≠ '.')
      = t.data.takeWhile (fun c => c ≠ '.'))
    (hu : u.data.head? = some '.') :
    userConfigMapName s = userConfigMapName t ∧
    userConfigMapName u = "user-manifest-" ∧
    userConfigMapName "a.yaml" = userConfigMapName "a.json" := by
  refine ⟨?_, ?_, by decide⟩
  · rw [userConfigMapName, userConfigMapName, splitOnChar_head, splitOnChar_head, hst]
  · cases hd : u.data with
    | nil => rw [hd] at hu; cases hu
    | cons c cs =>
      rw [hd] at hu
      simp only [List.head?_cons, Option.some.injEq] at hu
      subst hu
      rw [userConfigMapName, hd]
      simp only [splitOnChar, if_pos rfl, List.headD_cons, List.map_nil]
      apply String.ext
      rw [String.data_append]
      simp

/-- Witness for C10 at the concrete inputs `"a.yaml"`, `"a.json"` and
`".bashrc"`. -/
theorem C10_first_segment_only_witness :
    userConfigMapName "a.yaml" = userConfigMapName "a.json" ∧
    userConfigMapName ".bashrc" = "user-manifest-" ∧
    userConfigMapName "a.yaml" = userConfigMapName "a.json" :=
  C10_first_segment_only "a.yaml" "a.json" ".bashrc" (by decide) (by decide)

/-- C2: `addPatch` on a target name absent from the accumulated output
mapping fails with `PatchTargetMissing`; `kubeAPIServer` is exactly the
patch of `"kube-apiserver-deployment.yaml"` followed by the VPN client
config addition, so when that name is absent the whole step fails with
`PatchTargetMissing` for it. -/
theorem C2_patch_target_required (subst : Subst) (c : Ctx) :
    (∀ base patchPath, lookupM c.manifests base = none →
      addPatch subst c base patchPath = .error (.patchTargetMissing base)) ∧
    (kubeAPIServer subst c =
      addPatch subst c kubeAPIServerDeployment kubeAPIServerPatchFile >>=
        fun c1 => addManifestFiles subst c1 [vpnclientConfigFile]) ∧
    (lookupM c.manifests kubeAPIServerDeployment = none →
      kubeAPIServer subst c =
        .error (.patchTargetMissing kubeAPIServerDeployment)) := by
  refine ⟨fun base patchPath hl => ?_, rfl, fun hl => ?_⟩
  · simp [addPatch, hl]
  · simp only [kubeAPIServer]
    rw [show addPatch subst c kubeAPIServerDeployment kubeAPIServerPatchFile
        = .error (.patchTargetMissing kubeAPIServerDeployment) from by
      simp [addPatch, hl]]
    rfl

/-- Witness for C2 on the fresh context, whose mapping holds no manifest at
all, with a trivially succeeding substitution oracle. -/
theorem C2_patch_target_required_witness :
    addPatch (fun _ _ => .ok "") newClusterManifestContext "x.yaml" "p.yaml"
      = .error (.patchTargetMissing "x.yaml") ∧
    kubeAPIServer (fun _ _ => .ok "") newClusterManifestContext
      = .error (.patchTargetMissing kubeAPIServerDeployment) :=
  ⟨(C2_patch_target_required (fun _ _ => .ok "") newClusterManifestContext).1
      "x.yaml" "p.yaml" rfl,
   (C2_patch_target_required (fun _ _ => .ok "") newClusterManifestContext).2.2 rfl⟩

/-- C9: `addPatch` is textual append, not structural merge: on success the
manifest stored under the base name equals the base's previously rendered
text followed by the patch asset's expansion. -/
theorem C9_addPatch_textual_append (subst : Subst) (c : Ctx)
    (base patchPath content p : String)
    (hl : lookupM c.manifests base = some content)
    (hp : subst .cluster patchPath = .ok p) :
    ∃ c', addPatch subst c base patchPath = .ok c' ∧
      lookupM c'.manifests base = some (content ++ p) := by
  refine ⟨addManifest c base (content ++ p), ?_, ?_⟩
  · simp only [addPatch, hl]
    rw [hp]
    rfl
  · rw [addManifest_manifests]
    exact lookupM_upsert_self

/-- Witness for C9: a base rendering to `"replicas: 1"` patched by an asset
rendering to `"replicas: 3"` stores exactly their concatenation. -/
theorem C9_addPatch_textual_append_witness :
    ∃ c', addPatch (fun _ _ => .ok "replicas: 3")
        { manifests := [("kube-apiserver-deployment.yaml", "replicas: 1")],
          userManifestFiles := [], userManifests := [] }
        "kube-apiserver-deployment.yaml" "patch.yaml" = .ok c' ∧
      lookupM c'.manifests "kube-apiserver-deployment.yaml"
        = some ("replicas: 1" ++ "replicas: 3") :=
  C9_addPatch_textual_append (fun _ _ => .ok "replicas: 3")
    { manifests := [("kube-apiserver-deployment.yaml", "replicas: 1")],
      userManifestFiles := [], userManifests := [] }
    "kube-apiserver-deployment.yaml" "patch.yaml" "replicas: 1" "replicas: 3"
    rfl rfl

/-- C7: after a successful render pass starting from a mapping with unique
names, no two entries of the final output share a name; inserting an entry
under an already present name overwrites the previous value rather than
duplicating it, both for manifests and, via `addUserManifest`, for the
`userManifests` collection. -/
theorem C7_unique_overwrite (subst : Subst)
    (ord : List (String × String) → List (String × String)) (dir : List String)
    (e v o r : Bool) (σ c' c : Ctx) (n a b : String)
    (hnd : (keysL σ.manifests).Nodup)
    (h : setupManifests subst ord dir e v o r σ = .ok c') :
    (keysL c'.manifests).Nodup ∧
    lookupM (addManifest (addManifest c n a) n b).manifests n = some b ∧
    (addManifest (addManifest newClusterManifestContext "x" "a") "x" "b").manifests
      = [("x", "b")] ∧
    lookupM (addUserManifest (addUserManifest c n a) n b).userManifests n = some b ∧
    (addUserManifest (addUserManifest newClusterManifestContext "x" "a") "x"
      "b").userManifests = [("x", "b")] := by
  refine ⟨setup_nodup h hnd, ?_, by decide, ?_, by decide⟩
  · rw [addManifest_manifests]
    exact lookupM_upsert_self
  · rw [addUserManifest_userManifests]
    exact lookupM_upsert_self

/-- Distinguishes a successful outcome, for concrete evaluation in witnesses. -/
def isOkE (x : Except RenderError Ctx) : Bool :=
  match x with
  | .ok _ => true
  | .error _ => false

/-- A concrete initial context that seeds the patch target, so that a full
setup run can succeed. -/
def seededCtx : Ctx :=
  { manifests := [("kube-apiserver-deployment.yaml", "B")],
    userManifestFiles := [], userManifests := [] }

/-- Witness for C7 on a seeded initial context for which the setup run
succeeds with a trivial substitution oracle. -/
theorem C7_unique_overwrite_witness :
    (keysL seededCtx.manifests).Nodup ∧
    ∃ c', setupManifests (fun _ _ => .ok "T") id [] true true true true
        seededCtx = .ok c' ∧ (keysL c'.manifests).Nodup := by
  refine ⟨by decide, ?_⟩
  have hisok : isOkE (setupManifests (fun _ _ => .ok "T") id [] true true true
      true seededCtx) = true := by rfl
  cases hrun : setupManifests (fun _ _ => .ok "T") id [] true true true true
      seededCtx with
  | error err =>
    rw [hrun] at hisok
    simp [isOkE] at hisok
  | ok c' =>
    exact ⟨c', rfl,
      (C7_unique_overwrite (fun _ _ => .ok "T") id [] true true true true _ c'
        newClusterManifestContext "x" "a" "b" (by decide) hrun).1⟩

/-- C4: the user-manifest bootstrapper first adds the bootstrapper pod
manifest; then for every registered user manifest file it substitutes the
asset against the cluster parameters, derives the ConfigMap name via
`userConfigMapName` of the base file name, wraps (data, name) through the
fixed wrapper template, and adds the result under `"user-manifest-" +
baseFileName`; then it wraps every entry of the `userManifests` map keyed by
the entry's own name.  For a context holding exactly one user manifest file
and no map entries, the stored wrapped content is exhibited exactly. -/
theorem C4_bootstrapper_wraps (subst : Subst)
    (ord : List (String × String) → List (String × String)) (c c' : Ctx)
    (h : userManifestsBootstrapper subst ord c = .ok c') :
    (userManifestsBootstrapper subst ord c =
      addManifestFiles subst c [podFile] >>= fun c1 =>
      wrapFiles subst c1 c1.userManifestFiles >>= fun c2 =>
      wrapPairs subst c2 (ord c2.userManifests)) ∧
    podFile ∈ keysL c'.manifests ∧
    (∃ t, subst .cluster podFile = .ok t) ∧
    (∀ f ∈ c.userManifestFiles, ∃ data wrapped,
      subst .cluster f = .ok data ∧
      subst (.wrapper data (userConfigMapName (pathBase f))) wrapperTemplateFile
        = .ok wrapped ∧
      ("user-manifest-" ++ pathBase f) ∈ keysL c'.manifests) ∧
    (∀ p ∈ ord c.userManifests, ∃ wrapped,
      subst (.wrapper p.2 (userConfigMapName p.1)) wrapperTemplateFile
        = .ok wrapped ∧
      ("user-manifest-" ++ p.1) ∈ keysL c'.manifests) ∧
    (∀ (d d' : Ctx) (f : String), d.userManifestFiles = [f] →
      ord d.userManifests = [] →
      userManifestsBootstrapper subst ord d = .ok d' →
      ∃ data wrapped, subst .cluster f = .ok data ∧
        subst (.wrapper data (userConfigMapName (pathBase f)))
          wrapperTemplateFile = .ok wrapped ∧
        lookupM d'.manifests ("user-manifest-" ++ pathBase f) = some wrapped) := by
  obtain ⟨b1, b2, b3, b4, b5, b6⟩ := userManifestsBootstrapper_ok h
  refine ⟨rfl, (b3 podFile).2 (Or.inr (Or.inl rfl)), b4,
    fun f hf => ?_, fun p hp => ?_, fun d d' f hdf hord hd => ?_⟩
  · obtain ⟨data, wrapped, h1, h2⟩ := b5 f hf
    exact ⟨data, wrapped, h1, h2,
      (b3 _).2 (Or.inr (Or.inr (Or.inl ⟨f, hf, rfl⟩)))⟩
  · obtain ⟨wrapped, h1⟩ := b6 p hp
    exact ⟨wrapped, h1, (b3 _).2 (Or.inr (Or.inr (Or.inr ⟨p, hp, rfl⟩)))⟩
  · simp only [userManifestsBootstrapper] at hd
    rw [bind_ok] at hd
    obtain ⟨d₁, hpod, hd⟩ := hd
    rw [bind_ok] at hd
    obtain ⟨d₂, hwf, hwp⟩ := hd
    simp only [addManifestFiles] at hpod
    rw [bind_ok] at hpod
    obtain ⟨t, ht, hpod⟩ := hpod
    cases hpod
    rw [addManifest_userManifestFiles, hdf] at hwf
    simp only [wrapFiles] at hwf
    rw [bind_ok] at hwf
    obtain ⟨data, hdata, hwf⟩ := hwf
    rw [bind_ok] at hwf
    obtain ⟨dw, hwrap, hwf⟩ := hwf
    simp only [wrapUserManifest] at hwrap
    rw [bind_ok] at hwrap
    obtain ⟨wrapped, hw, hok⟩ := hwrap
    cases hok
    cases hwf
    rw [addManifest_userManifests, addManifest_userManifests, hord] at hwp
    simp only [wrapPairs] at hwp
    cases hwp
    refine ⟨data, wrapped, hdata, hw, ?_⟩
    rw [addManifest_manifests]
    exact lookupM_upsert_self

/-- A concrete substitution oracle for witnesses: expands every asset to a
tagged copy of its path. -/
def substTag : Subst := fun _ p => .ok ("R:" ++ p)

/-- A concrete context with one user manifest file and one user manifest
map entry, for the C4 witness. -/
def c4Ctx : Ctx :=
  { manifests := [], userManifestFiles := ["dir/foo_bar.yaml"],
    userManifests := [("crt", "PEM")] }

/-- Witness for C4 on a concrete context carrying one user manifest file and
one map entry. -/
theorem C4_bootstrapper_wraps_witness :
    ∃ c', userManifestsBootstrapper substTag id c4Ctx = .ok c' ∧
      podFile ∈ keysL c'.manifests ∧
      ("user-manifest-" ++ pathBase "dir/foo_bar.yaml") ∈ keysL c'.manifests ∧
      ("user-manifest-" ++ "crt") ∈ keysL c'.manifests := by
  have hisok : isOkE (userManifestsBootstrapper substTag id c4Ctx) = true := by rfl
  cases hrun : userManifestsBootstrapper substTag id c4Ctx with
  | error err =>
    rw [hrun] at hisok
    simp [isOkE] at hisok
  | ok c' =>
    obtain ⟨_, hpod, _, hfiles, hpairs, _⟩ :=
      C4_bootstrapper_wraps substTag id c4Ctx c' hrun
    obtain ⟨_, _, _, _, hm1⟩ := hfiles "dir/foo_bar.yaml" (by decide)
    obtain ⟨_, _, hm2⟩ := hpairs ("crt", "PEM") (by decide)
    exact ⟨c', rfl, hpod, hm1, hm2⟩

/-- The nine feature-group steps of `setupManifests`, named. -/
inductive SetupStep where
  | stepEtcd | stepKubeAPIServer | stepClusterBootstrap | stepOauth
  | stepOpenVPN | stepRegistry | stepBootstrapper | stepRouterProxy
  | stepOperator
deriving Repr, DecidableEq

/-- Runs one named feature-group step on the context. -/
def runStep (subst : Subst)
    (ord : List (String × String) → List (String × String)) (dir : List String)
    (c : Ctx) : SetupStep → Except RenderError Ctx
  | .stepEtcd => etcd subst c
  | .stepKubeAPIServer => kubeAPIServer subst c
  | .stepClusterBootstrap => .ok (clusterBootstrap dir c)
  | .stepOauth => .ok (oauthOpenshiftServer c)
  | .stepOpenVPN => openVPN subst c
  | .stepRegistry => .ok (registry c)
  | .stepBootstrapper => userManifestsBootstrapper subst ord c
  | .stepRouterProxy => routerProxy subst c
  | .stepOperator => hypershiftOperator subst c

/-- The spec's fixed setup order (spec section 4.3): etcd (if requested) →
API server → cluster-bootstrap → OAuth ingress secret (if externalOauth) →
VPN (if vpn) → registry (if includeRegistry) → user-manifest bootstrapper →
router proxy → operator deployment.  Written from the spec's words, to be
compared with `setupManifests` as translated from the source. -/
def specSetupOrder (e v o r : Bool) : List SetupStep :=
  (if e then [.stepEtcd] else []) ++ [.stepKubeAPIServer, .stepClusterBootstrap]
    ++ (if o then [.stepOauth] else []) ++ (if v then [.stepOpenVPN] else [])
    ++ (if r then [.stepRegistry] else [])
    ++ [.stepBootstrapper, .stepRouterProxy, .stepOperator]

theorem setup_eq_specOrder (subst : Subst)
    (ord : List (String × String) → List (String × String)) (dir : List String)
    (e v o r : Bool) (c : Ctx) :
    setupManifests subst ord dir e v o r c
      = (specSetupOrder e v o r).foldlM (runStep subst ord dir) c := by
  cases e <;> cases v <;> cases o <;> cases r <;>
    simp [setupManifests, specSetupOrder, runStep, List.foldlM, ok_bind]

theorem ne_userManifest_append {s : String}
    (hs : s.data.take 14 ≠ "user-manifest-".data) (x : String) :
    "user-manifest-" ++ x ≠ s := by
  intro h
  apply hs
  rw [← h, String.data_append]
  rfl

theorem userManifest_not_mem_router (x : String) :
    ("user-manifest-" ++ x) ∉ routerProxyFiles := by
  intro h
  simp only [routerProxyFiles, List.mem_cons, List.not_mem_nil, or_false] at h
  rcases h with h | h | h | h | h <;>
    exact ne_userManifest_append (by decide) x h

theorem userManifest_ne_operator (x : String) :
    ("user-manifest-" ++ x) ≠ operatorFile :=
  ne_userManifest_append (by decide) x

theorem preKeys_not_routerop {e v : Bool} {n : String} (hn : n ∈ preKeys e v) :
    n ∉ routerProxyFiles ∧ n ≠ operatorFile := by
  cases e with
  | false =>
    cases v with
    | false => exact (by decide :
        ∀ x ∈ preKeys false false, x ∉ routerProxyFiles ∧ x ≠ operatorFile) n hn
    | true => exact (by decide :
        ∀ x ∈ preKeys false true, x ∉ routerProxyFiles ∧ x ≠ operatorFile) n hn
  | true =>
    cases v with
    | false => exact (by decide :
        ∀ x ∈ preKeys true false, x ∉ routerProxyFiles ∧ x ≠ operatorFile) n hn
    | true => exact (by decide :
        ∀ x ∈ preKeys true true, x ∉ routerProxyFiles ∧ x ≠ operatorFile) n hn

theorem keysL_eq_singleton {ts : Manifests} {a : String}
    (h : keysL ts = [a]) : ∃ b, ts = [(a, b)] := by
  cases ts with
  | nil => cases h
  | cons p rest =>
    rw [keysL_cons] at h
    injection h with h1 h2
    cases rest with
    | cons q r2 => rw [keysL_cons] at h2; cases h2
    | nil =>
      refine ⟨p.2, ?_⟩
      rw [← h1]

theorem get_append_cases {α : Type} (l₁ l₂ : List α) (i : Nat)
    (h : i < (l₁ ++ l₂).length) :
    (i < l₁.length ∧ (l₁ ++ l₂).get ⟨i, h⟩ ∈ l₁) ∨
    (l₁.length ≤ i ∧ (l₁ ++ l₂).get ⟨i, h⟩ ∈ l₂) := by
  by_cases hlt : i < l₁.length
  · left
    refine ⟨hlt, ?_⟩
    rw [List.get_append i hlt]
    exact List.get_mem _ _ _
  · right
    push_neg at hlt
    refine ⟨hlt, ?_⟩
    have hsub : i - l₁.length < l₂.length := by
      rw [List.length_append] at h
      omega
    rw [@List.get_append_right _ _ l₁ l₂ hlt h hsub]
    exact List.get_mem _ _ _

/-- C3: `setupManifests` invokes the feature-group methods in the spec's
fixed order — proved as a refinement: it equals running the spec-side step
list `specSetupOrder` — and consequently, on a successful run whose initial
mapping holds no router-proxy or operator names, the cluster-bootstrap
derived manifests and the router-proxy manifests are both present, the
operator deployment manifest is the last entry, and every cluster-bootstrap
derived manifest precedes every router-proxy manifest in the output. -/
theorem C3_setup_order (subst : Subst)
    (ord : List (String × String) → List (String × String)) (dir : List String)
    (e v o r : Bool) (σ c' : Ctx)
    (h : setupManifests subst ord dir e v o r σ = .ok c')
    (hopk : operatorFile ∉ keysL σ.manifests)
    (hrtk : ∀ n ∈ routerProxyFiles, n ∉ keysL σ.manifests) :
    (∀ (e2 v2 o2 r2 : Bool) (c : Ctx),
      setupManifests subst ord dir e2 v2 o2 r2 c
        = (specSetupOrder e2 v2 o2 r2).foldlM (runStep subst ord dir) c) ∧
    (∀ m ∈ dir, ("user-manifest-" ++ pathBase ("cluster-bootstrap/" ++ m))
      ∈ keysL c'.manifests) ∧
    (∀ n ∈ routerProxyFiles, n ∈ keysL c'.manifests) ∧
    (keysL c'.manifests).getLast? = some operatorFile ∧
    (∀ (i j : Nat) (hi : i < c'.manifests.length) (hj : j < c'.manifests.length),
      (∃ m ∈ dir, (c'.manifests.get ⟨i, hi⟩).1
        = "user-manifest-" ++ pathBase ("cluster-bootstrap/" ++ m)) →
      (c'.manifests.get ⟨j, hj⟩).1 ∈ routerProxyFiles → i < j) := by
  obtain ⟨c₆, c₇, c₈, hum, humf, hkeys₆, _, hboot, hrouter, hoper⟩ := setup_decomp h
  obtain ⟨b1, b2, b3, _, _, _⟩ := userManifestsBootstrapper_ok hboot
  rw [humf, hum] at b3
  have hk7 : ∀ n, n ∈ keysL c₇.manifests ↔ n ∈ keysL σ.manifests ∨
      n ∈ preKeys e v ∨ n = podFile ∨
      (∃ f ∈ finalUserFiles σ.userManifestFiles dir o v r,
        n = "user-manifest-" ++ pathBase f) ∨
      (∃ p ∈ ord σ.userManifests, n = "user-manifest-" ++ p.1) := by
    intro n
    rw [b3 n, hkeys₆ n]
    simp only [or_assoc]
  have hfresh_r : ∀ n ∈ routerProxyFiles, n ∉ keysL c₇.manifests := by
    intro n hn hmem
    rcases (hk7 n).1 hmem with h1 | h2 | rfl | ⟨f, hf, rfl⟩ | ⟨p, hp, rfl⟩
    · exact hrtk n hn h1
    · exact (preKeys_not_routerop h2).1 hn
    · exact (by decide : podFile ∉ routerProxyFiles) hn
    · exact userManifest_not_mem_router _ hn
    · exact userManifest_not_mem_router _ hn
  have hfresh_o : operatorFile ∉ keysL c₇.manifests := by
    intro hmem
    rcases (hk7 operatorFile).1 hmem with h1 | h2 | heq | ⟨f, hf, heq⟩ | ⟨p, hp, heq⟩
    · exact hopk h1
    · exact (preKeys_not_routerop h2).2 rfl
    · exact (by decide : ¬ operatorFile = podFile) heq
    · exact userManifest_ne_operator _ heq.symm
    · exact userManifest_ne_operator _ heq.symm
  simp only [routerProxy] at hrouter
  obtain ⟨R, hR, hkR⟩ := addManifestFiles_structure hfresh_r (by decide) hrouter
  simp only [hypershiftOperator] at hoper
  have hfresh_op8 : ∀ n ∈ [operatorFile], n ∉ keysL c₈.manifests := by
    intro n hn
    rw [List.mem_singleton] at hn
    subst hn
    rw [hR, keysL_append, hkR, List.mem_append]
    rintro (hcase | hcase)
    · exact hfresh_o hcase
    · exact (by decide : operatorFile ∉ routerProxyFiles) hcase
  obtain ⟨ts, hts, hkts⟩ := addManifestFiles_structure hfresh_op8 (by decide) hoper
  obtain ⟨topT, rfl⟩ := keysL_eq_singleton hkts
  have hflat : c'.manifests = c₇.manifests ++ (R ++ [(operatorFile, topT)]) := by
    rw [hts, hR, List.append_assoc]
  have hkeysflat : keysL c'.manifests
      = keysL c₇.manifests ++ (routerProxyFiles ++ [operatorFile]) := by
    rw [hflat, keysL_append, keysL_append, hkR]
    rfl
  refine ⟨setup_eq_specOrder subst ord dir, ?_, ?_, ?_, ?_⟩
  · intro m hm
    rw [hkeysflat, List.mem_append]
    left
    refine (hk7 _).2 (Or.inr (Or.inr (Or.inr (Or.inl
      ⟨"cluster-bootstrap/" ++ m, ?_, rfl⟩))))
    simp only [finalUserFiles, List.mem_append]
    exact Or.inl (Or.inl (Or.inl (Or.inr (List.mem_map.2 ⟨m, hm, rfl⟩))))
  · intro n hn
    rw [hkeysflat, List.mem_append, List.mem_append]
    exact Or.inr (Or.inl hn)
  · rw [hkeysflat, ← List.append_assoc]
    exact List.getLast?_concat _
  · intro i j hi hj hderiv hrout
    have hig : i < (c₇.manifests ++ (R ++ [(operatorFile, topT)])).length := by
      rw [← hflat]
      exact hi
    have hjg : j < (c₇.manifests ++ (R ++ [(operatorFile, topT)])).length := by
      rw [← hflat]
      exact hj
    have hgi : c'.manifests.get ⟨i, hi⟩
        = (c₇.manifests ++ (R ++ [(operatorFile, topT)])).get ⟨i, hig⟩ := by
      rw [List.get_of_eq hflat ⟨i, hi⟩]
    have hgj : c'.manifests.get ⟨j, hj⟩
        = (c₇.manifests ++ (R ++ [(operatorFile, topT)])).get ⟨j, hjg⟩ := by
      rw [List.get_of_eq hflat ⟨j, hj⟩]
    have hilt : i < c₇.manifests.length := by
      rcases get_append_cases c₇.manifests (R ++ [(operatorFile, topT)]) i hig with
        ⟨hlt, _⟩ | ⟨hge, hmem⟩
      · exact hlt
      · exfalso
        obtain ⟨m, hm, hkey⟩ := hderiv
        rw [hgi] at hkey
        have hfstmem : ((c₇.manifests ++ (R ++ [(operatorFile, topT)])).get
            ⟨i, hig⟩).1 ∈ keysL (R ++ [(operatorFile, topT)]) :=
          List.mem_map_of_mem Prod.fst hmem
        rw [hkey, keysL_append, hkR, List.mem_append] at hfstmem
        rcases hfstmem with hcase | hcase
        · exact userManifest_not_mem_router _ hcase
        · have : ("user-manifest-" ++ pathBase ("cluster-bootstrap/" ++ m))
              ∈ ([operatorFile] : List String) := hcase
          rw [List.mem_singleton] at this
          exact userManifest_ne_operator _ this
    have hjge : c₇.manifests.length ≤ j := by
      rcases get_append_cases c₇.manifests (R ++ [(operatorFile, topT)]) j hjg with
        ⟨hlt, hmem⟩ | ⟨hge, _⟩
      · exfalso
        have hfstmem : ((c₇.manifests ++ (R ++ [(operatorFile, topT)])).get
            ⟨j, hjg⟩).1 ∈ keysL c₇.manifests :=
          List.mem_map_of_mem Prod.fst hmem
        rw [← hgj] at hfstmem
        exact hfresh_r _ hrout hfstmem
      · exact hge
    omega

/-- Witness for C3: a concrete successful run over the seeded context with a
one-entry cluster-bootstrap directory listing; the derived user manifest is
present and the operator deployment is the last output entry. -/
theorem C3_setup_order_witness :
    ∃ c', setupManifests substTag id ["m1.yaml"] true true true true seededCtx
        = .ok c' ∧
      ("user-manifest-" ++ pathBase ("cluster-bootstrap/" ++ "m1.yaml"))
        ∈ keysL c'.manifests ∧
      (keysL c'.manifests).getLast? = some operatorFile := by
  have hex : ∃ c, setupManifests substTag id ["m1.yaml"] true true true true
      seededCtx = .ok c := by
    have hisok : isOkE (setupManifests substTag id ["m1.yaml"] true true true
        true seededCtx) = true := by rfl
    cases hrun : setupManifests substTag id ["m1.yaml"] true true true true
        seededCtx with
    | error err => rw [hrun] at hisok; simp [isOkE] at hisok
    | ok c => exact ⟨c, rfl⟩
  obtain ⟨c', hr⟩ := hex
  obtain ⟨_, hderiv, _, hlast, _⟩ :=
    C3_setup_order substTag id ["m1.yaml"] true true true true seededCtx c' hr
      (by decide) (by decide)
  exact ⟨c', hr, hderiv "m1.yaml" (by decide), hlast⟩

/-- The manifest names belonging to the VPN feature: the four server-side
manifests and the two wrapped client-side user manifests. -/
def vpnKeys : List String :=
  vpnServerFiles ++ ["user-manifest-openvpn-client-deployment.yaml",
    "user-manifest-openvpn-client-configmap.yaml"]

theorem preKeys_false_not_etcd {v : Bool} {n : String}
    (hn : n ∈ preKeys false v) : ¬ underGroup "etcd/" n := by
  cases v with
  | false => exact (by decide : ∀ x ∈ preKeys false false, ¬ underGroup "etcd/" x) n hn
  | true => exact (by decide : ∀ x ∈ preKeys false true, ¬ underGroup "etcd/" x) n hn

theorem preKeys_not_vpn {e : Bool} {n : String}
    (hn : n ∈ preKeys e false) : n ∉ vpnKeys := by
  cases e with
  | false => exact (by decide : ∀ x ∈ preKeys false false, x ∉ vpnKeys) n hn
  | true => exact (by decide : ∀ x ∈ preKeys true false, x ∉ vpnKeys) n hn

/-- C6: feature flags gate manifest groups: with etcd off no name of the
etcd group reaches the output; with vpn on both the VPN server manifests and
the wrapped VPN client manifests are present; with vpn off neither is. -/
theorem C6_flag_gating (subst : Subst)
    (ord : List (String × String) → List (String × String)) (dir : List String)
    (e v o r : Bool) (σ c₁ c₂ c₃ : Ctx) :
    (setupManifests subst ord dir false v o r σ = .ok c₁ →
      (∀ n ∈ keysL σ.manifests, ¬ underGroup "etcd/" n) →
      ∀ n ∈ keysL c₁.manifests, ¬ underGroup "etcd/" n) ∧
    (setupManifests subst ord dir e true o r σ = .ok c₂ →
      (∀ n ∈ vpnServerFiles, n ∈ keysL c₂.manifests) ∧
      "user-manifest-openvpn-client-deployment.yaml" ∈ keysL c₂.manifests ∧
      "user-manifest-openvpn-client-configmap.yaml" ∈ keysL c₂.manifests) ∧
    (setupManifests subst ord dir e false o r σ = .ok c₃ →
      (∀ n ∈ keysL σ.manifests, n ∉ vpnKeys) →
      (∀ f ∈ σ.userManifestFiles, ("user-manifest-" ++ pathBase f) ∉ vpnKeys) →
      (∀ m ∈ dir,
        ("user-manifest-" ++ pathBase ("cluster-bootstrap/" ++ m)) ∉ vpnKeys) →
      (∀ p ∈ ord σ.userManifests, ("user-manifest-" ++ p.1) ∉ vpnKeys) →
      ∀ n ∈ vpnKeys, n ∉ keysL c₃.manifests) := by
  refine ⟨fun h hσ n hn => ?_, fun h => ?_, fun h hσk hf hd hp n hn hn' => ?_⟩
  · obtain ⟨_, _, hkeys⟩ := setup_ok h
    rcases (hkeys n).1 hn with hσn | hadd
    · exact hσ n hσn
    · simp only [addedKey] at hadd
      rcases hadd with hpre | rfl | ⟨f, hfm, rfl⟩ | ⟨p, hpm, rfl⟩ | hr | rfl
      · exact preKeys_false_not_etcd hpre
      · decide
      · exact not_underGroup_etcd_userManifest _
      · exact not_underGroup_etcd_userManifest _
      · exact (by decide : ∀ x ∈ routerProxyFiles, ¬ underGroup "etcd/" x) n hr
      · decide
  · obtain ⟨_, _, hkeys⟩ := setup_ok h
    refine ⟨fun n hn => (hkeys n).2 (Or.inr ?_), (hkeys _).2 (Or.inr ?_),
      (hkeys _).2 (Or.inr ?_)⟩
    · refine Or.inl ?_
      simp only [preKeys, List.mem_append]
      exact Or.inr (by simpa using hn)
    · refine Or.inr (Or.inr (Or.inl
        ⟨"openvpn/openvpn-client-deployment.yaml", ?_, by decide⟩))
      simp only [finalUserFiles, List.mem_append]
      exact Or.inl (Or.inr (by decide))
    · refine Or.inr (Or.inr (Or.inl
        ⟨"openvpn/openvpn-client-configmap.yaml", ?_, by decide⟩))
      simp only [finalUserFiles, List.mem_append]
      exact Or.inl (Or.inr (by decide))
  · obtain ⟨_, _, hkeys⟩ := setup_ok h
    rcases (hkeys n).1 hn' with hσn | hadd
    · exact hσk n hσn hn
    · simp only [addedKey] at hadd
      rcases hadd with hpre | rfl | ⟨f, hfm, rfl⟩ | ⟨p, hpm, rfl⟩ | hr | rfl
      · exact preKeys_not_vpn hpre hn
      · exact (by decide : podFile ∉ vpnKeys) hn
      · simp only [finalUserFiles, List.mem_append] at hfm
        rcases hfm with ((((hb | hdm) | ho) | hv) | hr)
        · exact hf f hb hn
        · obtain ⟨m, hm, heq⟩ := List.mem_map.1 hdm
          subst heq
          exact hd m hm hn
        · rcases Bool.dichotomy o with rfl | rfl
          · simp at ho
          · have hfo : f = oauthFile := by simpa using ho
            subst hfo
            exact (by decide :
              ("user-manifest-" ++ pathBase oauthFile) ∉ vpnKeys) hn
        · simp at hv
        · rcases Bool.dichotomy r with rfl | rfl
          · simp at hr
          · have hfr : f = registryFile := by simpa using hr
            subst hfr
            exact (by decide :
              ("user-manifest-" ++ pathBase registryFile) ∉ vpnKeys) hn
      · exact hp p hpm hn
      · exact (by decide : ∀ x ∈ routerProxyFiles, x ∉ vpnKeys) n hr hn
      · exact (by decide : operatorFile ∉ vpnKeys) hn

/-- Witness for C6: three concrete successful runs over the seeded context,
one with etcd off, one with vpn on, one with vpn off. -/
theorem C6_flag_gating_witness :
    ∃ c₁ c₂ c₃ : Ctx,
      setupManifests substTag id [] false true true true seededCtx = .ok c₁ ∧
      (∀ n ∈ keysL c₁.manifests, ¬ underGroup "etcd/" n) ∧
      setupManifests substTag id [] true true true true seededCtx = .ok c₂ ∧
      "user-manifest-openvpn-client-deployment.yaml" ∈ keysL c₂.manifests ∧
      setupManifests substTag id [] true false true true seededCtx = .ok c₃ ∧
      "user-manifest-openvpn-client-deployment.yaml" ∉ keysL c₃.manifests := by
  have hex1 : ∃ c, setupManifests substTag id [] false true true true seededCtx
      = .ok c := by
    have hisok : isOkE (setupManifests substTag id [] false true true true
        seededCtx) = true := by rfl
    cases hrun : setupManifests substTag id [] false true true true seededCtx with
    | error err => rw [hrun] at hisok; simp [isOkE] at hisok
    | ok c => exact ⟨c, rfl⟩
  have hex2 : ∃ c, setupManifests substTag id [] true true true true seededCtx
      = .ok c := by
    have hisok : isOkE (setupManifests substTag id [] true true true true
        seededCtx) = true := by rfl
    cases hrun : setupManifests substTag id [] true true true true seededCtx with
    | error err => rw [hrun] at hisok; simp [isOkE] at hisok
    | ok c => exact ⟨c, rfl⟩
  have hex3 : ∃ c, setupManifests substTag id [] true false true true seededCtx
      = .ok c := by
    have hisok : isOkE (setupManifests substTag id [] true false true true
        seededCtx) = true := by rfl
    cases hrun : setupManifests substTag id [] true false true true seededCtx with
    | error err => rw [hrun] at hisok; simp [isOkE] at hisok
    | ok c => exact ⟨c, rfl⟩
  obtain ⟨c₁, hr1⟩ := hex1
  obtain ⟨c₂, hr2⟩ := hex2
  obtain ⟨c₃, hr3⟩ := hex3
  obtain ⟨g1, g2, g3⟩ :=
    C6_flag_gating substTag id [] true true true true seededCtx c₁ c₂ c₃
  exact ⟨c₁, c₂, c₃, hr1, g1 hr1 (by decide), hr2, (g2 hr2).2.1, hr3,
    g3 hr3 (by decide) (by decide) (by decide) (by decide) _ (by decide)⟩

/-- Modelled from the spec: the `randomString` template helper (spec section
4.1) returns a random printable string of the given length, with no
caller-visible determinism requirement; its randomness source is made
explicit as an entropy stream drawn fresh by every render pass. -/
def randomString (entropy : Nat → Char) (n : Nat) : String :=
  String.mk ((List.range n).map entropy)

/-- A substitution oracle over a fixed asset library and fixed cluster
parameters in which the bootstrapper pod template invokes the `randomString`
helper; only the entropy stream varies between render passes. -/
def substRandom (entropy : Nat → Char) : Subst := fun _ p =>
  if p = podFile then .ok (randomString entropy 4) else .ok ""

deriving instance DecidableEq for Except

theorem bootstrapper_ord_eq {subst : Subst}
    {ord₁ ord₂ : List (String × String) → List (String × String)} {c : Ctx}
    (h1 : ∀ l, List.Perm (ord₁ l) l) (h2 : ∀ l, List.Perm (ord₂ l) l)
    (hc : c.userManifests = []) :
    userManifestsBootstrapper subst ord₁ c = userManifestsBootstrapper subst ord₂ c := by
  simp only [userManifestsBootstrapper]
  cases hpod : addManifestFiles subst c [podFile] with
  | error err => rfl
  | ok c1 =>
    rw [ok_bind, ok_bind]
    cases hwf : wrapFiles subst c1 c1.userManifestFiles with
    | error err => rfl
    | ok c2 =>
      rw [ok_bind, ok_bind]
      have hc1 : c1.userManifests = [] := by
        rw [(addManifestFiles_ok hpod).2.1, hc]
      have hc2 : c2.userManifests = [] := by
        rw [(wrapFiles_ok hwf).2.1, hc1]
      rw [hc2, List.Perm.eq_nil (h1 []), List.Perm.eq_nil (h2 [])]

/-- C8 counterexample: with identical cluster parameters, image and version
tables, feature flags, asset library and PKI directory, two render passes
whose pod template invokes `randomString` produce different bytes: the
passes differ only in the entropy drawn by the helper, which the spec leaves
random, yet both succeed. -/
theorem C8_counterexample_randomString :
    setupManifests (substRandom (fun _ => 'a')) id [] false false false false
        seededCtx
      ≠ setupManifests (substRandom (fun _ => 'b')) id [] false false false
        false seededCtx ∧
    isOkE (setupManifests (substRandom (fun _ => 'a')) id [] false false false
      false seededCtx) = true ∧
    isOkE (setupManifests (substRandom (fun _ => 'b')) id [] false false false
      false seededCtx) = true := by
  refine ⟨by decide, by rfl, by rfl⟩

/-- C8 (amended): a render pass is a pure function of its substitution
oracle, and the iteration order of the `userManifests` map cannot affect the
output because no setup step ever calls `addUserManifest`, so the map is
still empty when the bootstrapper iterates it: runs under any two
permutation-respecting iteration orders coincide, both for `setupManifests`
from a map-free context and for `RenderClusterManifests` as a whole. -/
theorem C8_deterministic_modulo_randomness (subst : Subst) (dir : List String)
    (e v o r : Bool) (σ : Ctx)
    (ord₁ ord₂ : List (String × String) → List (String × String))
    (h1 : ∀ l, List.Perm (ord₁ l) l) (h2 : ∀ l, List.Perm (ord₂ l) l)
    (hσ : σ.userManifests = []) :
    setupManifests subst ord₁ dir e v o r σ
      = setupManifests subst ord₂ dir e v o r σ ∧
    (∀ rel substOf, RenderClusterManifests rel substOf ord₁ dir e v o r
      = RenderClusterManifests rel substOf ord₂ dir e v o r) := by
  have hsetup : ∀ (subst2 : Subst) (τ : Ctx), τ.userManifests = [] →
      setupManifests subst2 ord₁ dir e v o r τ
        = setupManifests subst2 ord₂ dir e v o r τ := by
    intro subst2 τ hτ
    simp only [setupManifests]
    cases h₁ : (if e then etcd subst2 τ else .ok τ) with
    | error err => rfl
    | ok c1 =>
      rw [ok_bind, ok_bind]
      cases h₂ : kubeAPIServer subst2 c1 with
      | error err => rfl
      | ok c2 =>
        rw [ok_bind, ok_bind]
        cases h₅ : (if v then
            openVPN subst2
              (if o then oauthOpenshiftServer (clusterBootstrap dir c2)
               else clusterBootstrap dir c2)
          else .ok
            (if o then oauthOpenshiftServer (clusterBootstrap dir c2)
             else clusterBootstrap dir c2)) with
        | error err => rfl
        | ok c5 =>
          rw [ok_bind, ok_bind]
          have hc1 : c1.userManifests = [] := by
            rw [(etcdIf_ok h₁).2.1, hτ]
          have hc2 : c2.userManifests = [] := by
            rw [(kubeAPIServer_ok h₂).2.1, hc1]
          have hX : (if o then oauthOpenshiftServer (clusterBootstrap dir c2)
              else clusterBootstrap dir c2).userManifests = [] := by
            cases o <;> simp [oauthOpenshiftServer, hc2]
          have hc5 : c5.userManifests = [] := by
            rw [(vpnIf_ok h₅).2.1, hX]
          have hR : (if r then registry c5 else c5).userManifests = [] := by
            cases r <;> simp [registry, hc5]
          rw [bootstrapper_ord_eq h1 h2 hR]
  refine ⟨hsetup subst σ hσ, fun rel substOf => ?_⟩
  cases rel with
  | error err => rfl
  | ok info =>
    simp only [RenderClusterManifests]
    rw [hsetup (substOf info) newClusterManifestContext rfl]

/-- Witness for C8 (amended): the identity order and the reversing order
agree on a concrete successful run and on a full render call. -/
theorem C8_deterministic_modulo_randomness_witness :
    setupManifests substTag id [] true true true true seededCtx
      = setupManifests substTag List.reverse [] true true true true seededCtx ∧
    RenderClusterManifests (.ok { images := [], versions := [] })
        (fun _ => substTag) id [] true true true true
      = RenderClusterManifests (.ok { images := [], versions := [] })
        (fun _ => substTag) List.reverse [] true true true true :=
  ⟨(C8_deterministic_modulo_randomness substTag [] true true true true seededCtx
      id List.reverse (fun l => List.Perm.refl l)
      (fun l => List.reverse_perm l) rfl).1,
   (C8_deterministic_modulo_randomness substTag [] true true true true seededCtx
      id List.reverse (fun l => List.Perm.refl l)
      (fun l => List.reverse_perm l) rfl).2
      (.ok { images := [], versions := [] }) (fun _ => substTag)⟩

/-- C1: any failure aborts the render pass with the first error and no
manifest set: a release-resolution failure is returned before any manifest
exists, a failing setup run propagates its error, and a manifest set is
produced only by a fully successful run. -/
theorem C1_fail_fast (substOf : ReleaseInfo → Subst)
    (ord : List (String × String) → List (String × String)) (dir : List String)
    (e v o r : Bool) :
    (∀ err, RenderClusterManifests (.error err) substOf ord dir e v o r
      = .error err) ∧
    (∀ info err, setupManifests (substOf info) ord dir e v o r
        newClusterManifestContext = .error err →
      RenderClusterManifests (.ok info) substOf ord dir e v o r = .error err) ∧
    (∀ rel ms, RenderClusterManifests rel substOf ord dir e v o r = .ok ms →
      ∃ info c, rel = .ok info ∧
        setupManifests (substOf info) ord dir e v o r newClusterManifestContext
          = .ok c ∧ ms = renderManifests c) := by
  refine ⟨fun err => rfl, fun info err hsetup => ?_, fun rel ms h => ?_⟩
  · simp [RenderClusterManifests, hsetup]
  · cases rel with
    | error err => simp [RenderClusterManifests] at h
    | ok info =>
      simp only [RenderClusterManifests] at h
      cases hsetup : setupManifests (substOf info) ord dir e v o r
          newClusterManifestContext with
      | error err => rw [hsetup] at h; cases h
      | ok c =>
        rw [hsetup] at h
        cases h
        exact ⟨info, c, rfl, hsetup, rfl⟩

/-- Witness for C1: a failing release resolution is returned as is, and a
substitution oracle that always fails aborts the setup run with that
error. -/
theorem C1_fail_fast_witness :
    RenderClusterManifests (.error (.releaseResolution "pull failed"))
      (fun _ _ _ => .error (.templateError "boom")) id [] true false false false
      = .error (.releaseResolution "pull failed") ∧
    RenderClusterManifests (.ok { images := [], versions := [] })
      (fun _ _ _ => .error (.templateError "boom")) id [] true false false false
      = .error (.templateError "boom") :=
  ⟨(C1_fail_fast (fun _ _ _ => .error (.templateError "boom")) id [] true false
      false false).1 (.releaseResolution "pull failed"),
   (C1_fail_fast (fun _ _ _ => .error (.templateError "boom")) id [] true false
      false false).2.1 { images := [], versions := [] }
      (.templateError "boom") rfl⟩

end Render
